import Mathlib

/-
Verification of the frwd crawl-and-ingest engine against its
natural-language specification.  The Lean definitions below are shallow
embeddings of the Python source:

  * pipeline/base.py        (RetryManager, HttpClient, ThreadedBatchProcessor)
  * pipeline/config.py      (RetryConfig)
  * pipeline/discovery/discover_laws.py (DiscoveryProcessor)
  * pipeline/detail/process_laws.py     (DetailProcessor)
  * pipeline/relations/backfill_relations.py
  * eu_pipeline/detail.py   (EUDetailProcessor)
  * models.py               (Law, LawRelation)

Machine integers are modelled as Nat, timestamps as Nat, float delays as
rationals (the source delays 1.0 / 2.0 / 60.0 and their products are
exactly representable), databases as lists of rows, and the effects of
the outside world (HTTP responses, SQL uniqueness races) as explicit
oracle parameters.
-/

namespace Frwd

/-! ## Retry transport: pipeline/base.py RetryManager, pipeline/config.py RetryConfig -/

/-- RetryConfig from pipeline/config.py (defaults of the dataclass).
Delays are floats in the source; they are modelled as rationals. -/
structure RetryConfig where
  max_retries : Nat := 3
  base_delay : ℚ := 1
  max_delay : ℚ := 60
  exponential_base : ℚ := 2
  timeout : Nat := 30
deriving Repr, DecidableEq

/-- The backoff delay computed in RetryManager.retry_with_backoff:
min(base_delay * exponential_base ** attempt, max_delay). -/
def backoffDelay (cfg : RetryConfig) (attempt : Nat) : ℚ :=
  min (cfg.base_delay * cfg.exponential_base ^ attempt) cfg.max_delay

/-- Trace of one retry_with_backoff execution: the surfaced result
(`Except.error none` models the `raise None` that happens when
max_retries = 0 and last_exception was never assigned), the number of
calls made to the wrapped function, and the list of sleeps performed. -/
structure RetryTrace (ε α : Type) where
  result : Except (Option ε) α
  attemptsMade : Nat
  sleeps : List ℚ
deriving Repr

/-- Loop body of RetryManager.retry_with_backoff (pipeline/base.py).
`f k` is the outcome of the k-th call of the wrapped function; `rem` is
the number of loop iterations still to run after the current one
(`attempt < max_retries - 1` in the source is exactly `rem > 0`). -/
def retryGo (cfg : RetryConfig) (f : Nat → Except ε α) :
    Nat → Nat → RetryTrace ε α
  | _, 0 => { result := Except.error none, attemptsMade := 0, sleeps := [] }
  | attempt, rem + 1 =>
    match f attempt with
    | Except.ok a => { result := Except.ok a, attemptsMade := 1, sleeps := [] }
    | Except.error e =>
      if rem = 0 then
        { result := Except.error (some e), attemptsMade := 1, sleeps := [] }
      else
        let d := backoffDelay cfg attempt
        let t := retryGo cfg f (attempt + 1) rem
        { result := t.result, attemptsMade := t.attemptsMade + 1, sleeps := d :: t.sleeps }

/-- RetryManager.retry_with_backoff from pipeline/base.py. -/
def retry_with_backoff (cfg : RetryConfig) (f : Nat → Except ε α) : RetryTrace ε α :=
  retryGo cfg f 0 cfg.max_retries

/-! HttpClient.get (pipeline/base.py): the inner _get calls
session.get and then response.raise_for_status(), which raises an
HTTPError for any status >= 400; the whole _get is passed to
retry_with_backoff, whose `except Exception` catches every error kind. -/

/-- Outcome of one underlying session.get call. -/
inductive HttpOutcome where
  | success (body : String)
  | httpStatus (status : Nat)
  | timeout
  | connectionError
deriving Repr, DecidableEq

/-- Error surfaced by one _get attempt. -/
inductive HttpError where
  | statusError (status : Nat)
  | timeoutError
  | connectionFailed
deriving Repr, DecidableEq

/-- The inner _get of HttpClient.get: a successful response with
status < 400 is returned, any status >= 400 raises (raise_for_status),
and transport failures raise. -/
def getAttempt (outcome : HttpOutcome) : Except HttpError String :=
  match outcome with
  | HttpOutcome.success body => Except.ok body
  | HttpOutcome.httpStatus s => Except.error (HttpError.statusError s)
  | HttpOutcome.timeout => Except.error HttpError.timeoutError
  | HttpOutcome.connectionError => Except.error HttpError.connectionFailed

/-- HttpClient.get from pipeline/base.py: _get wrapped in
retry_with_backoff.  `outcomes k` is what the session returns on the
k-th attempt. -/
def httpClientGet (cfg : RetryConfig) (outcomes : Nat → HttpOutcome) :
    RetryTrace HttpError String :=
  retry_with_backoff cfg (fun k => getAttempt (outcomes k))

/-! ## Data model: models.py Law -/

/-- A row of the laws table (models.py class Law).  DateTime and Date
columns are modelled as Nat timestamps, nullable columns as Option. -/
structure Law where
  id : Nat
  act_id : Nat
  title : Option String := none
  law_type : Option String := none
  institution : Option String := none
  law_number : Option String := none
  gazette_number : Option String := none
  publish_date : Option Nat := none
  category : String
  detail_url : String
  pdf_downloaded : Bool := false
  pdf_path : Option String := none
  last_seen_at : Option Nat := none
  processed_at : Option Nat := none
  unprocessed : Bool := true
  pdf_text : Option String := none
  pdf_text_extracted_at : Option Nat := none
deriving Repr, DecidableEq

/-- The laws table is a list of rows in insertion order. -/
abbrev LawDB := List Law

/-- session.query(Law).filter_by(act_id=a).first() -/
def findByActId (db : LawDB) (a : Nat) : Option Law :=
  db.find? (fun l => l.act_id == a)

/-- Primary-key value assigned by the database to a freshly inserted
row (autoincrement). -/
def nextLawId (db : LawDB) : Nat :=
  (db.map (fun l => l.id)).foldr Nat.max 0 + 1

/-- Replace the first row satisfying p by f of it (a session update on
the object returned by .first()). -/
def updateFirst (p : Law → Bool) (f : Law → Law) : LawDB → LawDB
  | [] => []
  | r :: rs => if p r then f r :: rs else r :: updateFirst p f rs

/-! ## UpsertStore: DiscoveryProcessor._store_link_batch
(pipeline/discovery/discover_laws.py, lines 299-380) -/

/-- The update performed on an existing row by _store_link_batch: the
last_seen_at touch and the conditional detail_url refresh. -/
def touchLaw (now : Nat) (detail_url : String) (l : Law) : Law :=
  { l with last_seen_at := some now, detail_url := detail_url }

/-- Per-item status recorded in the batch_stats dictionary. -/
inductive StoreStatus where
  | new
  | updated
  | error
deriving Repr, DecidableEq

/-- Outcome of flushing the savepoint around one insert.  `ok` is a
clean commit; `conflict raced` is the IntegrityError raised when a
concurrent transaction won the race to create the same act_id —
`raced` is the row that the post-rollback re-query sees (none when even
the re-query does not find a row, the degenerate failure the source
counts as an error). -/
inductive SaveOutcome where
  | ok
  | conflict (raced : Option Law)
deriving Repr

/-- Processing of a single link inside _store_link_batch: the savepoint
block, with its IntegrityError handler that rolls the savepoint back
and retries once as an update. -/
def storeOneLink (env : SaveOutcome) (now : Nat) (category : String)
    (db : LawDB) (act_id : Nat) (detail_url : String) : LawDB × StoreStatus :=
  match findByActId db act_id with
  | some _ =>
    (updateFirst (fun l => l.act_id == act_id) (touchLaw now detail_url) db,
     StoreStatus.updated)
  | none =>
    let newLaw : Law :=
      { id := nextLawId db, act_id := act_id, category := category,
        detail_url := detail_url, last_seen_at := some now, unprocessed := true }
    match env with
    | SaveOutcome.ok => (db ++ [newLaw], StoreStatus.new)
    | SaveOutcome.conflict raced =>
      -- savepoint rolled back: newLaw is NOT in the session; the
      -- re-query sees the racing transaction's row, if any.
      match raced with
      | some other =>
        let dbAfter := db ++ [other]
        (updateFirst (fun l => l.act_id == act_id) (touchLaw now detail_url)
           dbAfter,
         StoreStatus.updated)
      | none => (db, StoreStatus.error)

/-- The new/updated/errors counters of _store_link_batch. -/
structure StoreStats where
  new : Nat := 0
  updated : Nat := 0
  errors : Nat := 0
deriving Repr, DecidableEq

/-- Add one per-item status to the counters. -/
def StoreStats.bump (s : StoreStats) : StoreStatus → StoreStats
  | StoreStatus.new => { s with new := s.new + 1 }
  | StoreStatus.updated => { s with updated := s.updated + 1 }
  | StoreStatus.error => { s with errors := s.errors + 1 }

/-- DiscoveryProcessor._store_link_batch: the loop over batch_links.
`envs i` is the savepoint outcome for the i-th link of the batch
(consulted only on the insert path).  The final session.commit() is
modelled as succeeding. -/
def storeLinkBatchGo (envs : Nat → SaveOutcome) (now : Nat) (category : String)
    (i : Nat) (db : LawDB) (stats : StoreStats) :
    List (Nat × String) → LawDB × StoreStats
  | [] => (db, stats)
  | (act_id, detail_url) :: rest =>
    let r := storeOneLink (envs i) now category db act_id detail_url
    storeLinkBatchGo envs now category (i + 1) r.1 (stats.bump r.2) rest

/-- DiscoveryProcessor._store_link_batch from
pipeline/discovery/discover_laws.py. -/
def store_link_batch (envs : Nat → SaveOutcome) (now : Nat) (category : String)
    (db : LawDB) (links : List (Nat × String)) : LawDB × StoreStats :=
  storeLinkBatchGo envs now category 0 db { } links

/-- The savepoint outcome stream of a run with no uniqueness races. -/
def noConflicts : Nat → SaveOutcome := fun _ => SaveOutcome.ok

/-- Number of rows carrying a given act_id. -/
def countActId (db : LawDB) (a : Nat) : Nat :=
  db.countP (fun l => l.act_id == a)

/-- last_seen_at of the row found for the given act_id, if any. -/
def lastSeenOf (db : LawDB) (a : Nat) : Option Nat :=
  (findByActId db a).bind Law.last_seen_at

theorem countActId_eq_zero_of_absent {db : LawDB} {a : Nat}
    (h : findByActId db a = none) : countActId db a = 0 := by
  rw [countActId, List.countP_eq_zero]
  intro l hl
  have := List.find?_eq_none.mp h l hl
  simpa using this

theorem countActId_append (db : LawDB) (l : Law) (a : Nat) :
    countActId (db ++ [l]) a =
      countActId db a + (if l.act_id == a then 1 else 0) := by
  simp [countActId, List.countP_append, List.countP_cons]

theorem updateFirst_countP (p : Law → Bool) (f : Law → Law)
    (q : Law → Bool) (hf : ∀ x, q (f x) = q x) (db : LawDB) :
    (updateFirst p f db).countP q = db.countP q := by
  induction db with
  | nil => rfl
  | cons r rs ih =>
    by_cases hr : p r
    · simp [updateFirst, hr, List.countP_cons, hf]
    · simp [updateFirst, hr, List.countP_cons, ih]

theorem findByActId_updateFirst (db : LawDB) (a : Nat) {r : Law}
    (f : Law → Law) (hf : ∀ x, (f x).act_id = x.act_id)
    (h : findByActId db a = some r) :
    findByActId (updateFirst (fun l => l.act_id == a) f db) a = some (f r) := by
  induction db with
  | nil => simp [findByActId] at h
  | cons x xs ih =>
    by_cases hx : x.act_id == a
    · have hxr : x = r := by
        simpa [findByActId, List.find?_cons, hx] using h
      subst hxr
      simp [findByActId, updateFirst, List.find?_cons, hx, hf]
    · have h0 : findByActId xs a = some r := by
        simpa [findByActId, List.find?_cons, hx] using h
      have := ih h0
      simpa [findByActId, updateFirst, List.find?_cons, hx, hf] using this

theorem exists_row_of_countActId_pos (db : LawDB) (a : Nat)
    (h : 0 < countActId db a) :
    ∃ r, findByActId db a = some r ∧ r.act_id = a := by
  induction db with
  | nil => simp [countActId] at h
  | cons x xs ih =>
    by_cases hx : x.act_id == a
    · exact ⟨x, by simp [findByActId, List.find?_cons, hx], by simpa using hx⟩
    · have h0 : 0 < countActId xs a := by
        simpa [countActId, List.countP_cons, hx] using h
      obtain ⟨r, hr, hra⟩ := ih h0
      exact ⟨r, by simpa [findByActId, List.find?_cons, hx] using hr, hra⟩

/-- Unfolding of a one-element batch. -/
theorem store_link_batch_singleton (envs : Nat → SaveOutcome) (now : Nat)
    (category : String) (db : LawDB) (a : Nat) (u : String) :
    store_link_batch envs now category db [(a, u)] =
      ((storeOneLink (envs 0) now category db a u).1,
        StoreStats.bump { } (storeOneLink (envs 0) now category db a u).2) := by
  rfl

/-- C1, claim theorem.  For an act_id absent from the store, the first
discovery upsert call inserts exactly one row (status new) whose
last_seen_at is the call time; and from any store holding exactly one
row for that act_id, a further call with the same fields updates that
row in place — no additional row, status updated — and stamps
last_seen_at with the (later) call time, so last_seen_at is
monotonically non-decreasing across repeated calls. -/
theorem c1_idempotent_upsert
    (a : Nat) (u category : String) (db : LawDB) (t1 : Nat)
    (habsent : findByActId db a = none) :
    (store_link_batch noConflicts t1 category db [(a, u)]).2 =
        { new := 1, updated := 0, errors := 0 } ∧
    countActId (store_link_batch noConflicts t1 category db [(a, u)]).1 a = 1 ∧
    lastSeenOf (store_link_batch noConflicts t1 category db [(a, u)]).1 a = some t1 ∧
    (∀ db2 t2, countActId db2 a = 1 →
      (store_link_batch noConflicts t2 category db2 [(a, u)]).2 =
          { new := 0, updated := 1, errors := 0 } ∧
      countActId (store_link_batch noConflicts t2 category db2 [(a, u)]).1 a = 1 ∧
      lastSeenOf (store_link_batch noConflicts t2 category db2 [(a, u)]).1 a = some t2) := by
  have hcount0 : countActId db a = 0 := countActId_eq_zero_of_absent habsent
  refine ⟨?_, ?_, ?_, ?_⟩
  · simp [store_link_batch_singleton, storeOneLink, habsent, noConflicts,
      StoreStats.bump]
  · rw [store_link_batch_singleton]
    simp only [storeOneLink, habsent, noConflicts]
    rw [countActId_append]
    simp [hcount0]
  · rw [store_link_batch_singleton]
    simp only [storeOneLink, habsent, noConflicts]
    have habs2 : List.find? (fun l => l.act_id == a) db = none := habsent
    simp [lastSeenOf, findByActId, List.find?_append, habs2]
  · intro db2 t2 hone
    obtain ⟨r, hr, hra⟩ :=
      exists_row_of_countActId_pos db2 a (by omega)
    refine ⟨?_, ?_, ?_⟩
    · simp [store_link_batch_singleton, storeOneLink, hr, StoreStats.bump]
    · rw [store_link_batch_singleton]
      simp only [storeOneLink, hr]
      rw [show countActId (updateFirst (fun l => l.act_id == a)
            (touchLaw t2 u) db2) a =
          countActId db2 a from
        updateFirst_countP _ _ _ (fun x => by simp [touchLaw]) db2]
      exact hone
    · rw [store_link_batch_singleton]
      simp only [storeOneLink, hr]
      have := findByActId_updateFirst db2 a
        (touchLaw t2 u) (fun x => by simp [touchLaw]) hr
      simp [lastSeenOf, this, touchLaw]

/-- C1, witness: the theorem applied to a concrete empty store, with
two successive calls at times 5 then 9. -/
theorem c1_idempotent_upsert_witness :
    (findByActId [] 7 = none) ∧
    ((store_link_batch noConflicts 5 "LocalInstActs" [] [(7, "u")]).2 =
        { new := 1, updated := 0, errors := 0 } ∧
      countActId (store_link_batch noConflicts 5 "LocalInstActs" [] [(7, "u")]).1 7 = 1 ∧
      lastSeenOf (store_link_batch noConflicts 5 "LocalInstActs" [] [(7, "u")]).1 7 = some 5 ∧
      (∀ db2 t2, countActId db2 7 = 1 →
        (store_link_batch noConflicts t2 "LocalInstActs" db2 [(7, "u")]).2 =
            { new := 0, updated := 1, errors := 0 } ∧
        countActId (store_link_batch noConflicts t2 "LocalInstActs" db2 [(7, "u")]).1 7 = 1 ∧
        lastSeenOf (store_link_batch noConflicts t2 "LocalInstActs" db2 [(7, "u")]).1 7 = some t2)) :=
  ⟨by decide, c1_idempotent_upsert 7 "u" "LocalInstActs" [] 5 (by decide)⟩

/-! C2: conflict recovery in the upsert. -/

/-- Fieldwise sum of two stats records. -/
def StoreStats.add (s t : StoreStats) : StoreStats :=
  { new := s.new + t.new, updated := s.updated + t.updated,
    errors := s.errors + t.errors }

theorem findByActId_append_absent {db : LawDB} {a : Nat} {other : Law}
    (habsent : findByActId db a = none) (hother : other.act_id = a) :
    findByActId (db ++ [other]) a = some other := by
  have habs2 : List.find? (fun l => l.act_id == a) db = none := habsent
  simp [findByActId, List.find?_append, habs2, hother]

theorem storeLinkBatchGo_shift (envs : Nat → SaveOutcome) (now : Nat)
    (category : String) :
    ∀ (links : List (Nat × String)) (i : Nat) (db : LawDB) (s : StoreStats),
      storeLinkBatchGo envs now category (i + 1) db s links =
        storeLinkBatchGo (fun j => envs (j + 1)) now category i db s links := by
  intro links
  induction links with
  | nil => intro i db s; rfl
  | cons hd tl ih =>
    intro i db s
    cases hd with
    | mk act_id detail_url =>
      simp only [storeLinkBatchGo]
      exact ih (i + 1) _ _

theorem storeLinkBatchGo_stats (envs : Nat → SaveOutcome) (now : Nat)
    (category : String) :
    ∀ (links : List (Nat × String)) (i : Nat) (db : LawDB) (s : StoreStats),
      storeLinkBatchGo envs now category i db s links =
        ((storeLinkBatchGo envs now category i db { } links).1,
          s.add (storeLinkBatchGo envs now category i db { } links).2) := by
  intro links
  induction links with
  | nil =>
    intro i db s
    simp [storeLinkBatchGo, StoreStats.add]
  | cons hd tl ih =>
    intro i db s
    cases hd with
    | mk act_id detail_url =>
      simp only [storeLinkBatchGo]
      rw [ih (i + 1) _ (s.bump _), ih (i + 1) _ (StoreStats.bump { } _)]
      refine Prod.ext rfl ?_
      cases h2 : (storeOneLink (envs i) now category db act_id detail_url).2 <;>
        simp [StoreStats.add, StoreStats.bump] <;> omega

/-- C2, claim theorem.  For an act_id not in the session, an insert hit
by a uniqueness violation is rolled back to the savepoint (the new row
is not persisted) and retried exactly once as an update against the row
the re-query now sees, refreshing last_seen_at and detail_url and
counting the item as updated; if the retry also fails to find the row,
the item alone is counted as an error and the remaining links of the
batch are processed exactly as they would have been. -/
theorem c2_conflict_recovery
    (a : Nat) (u category : String) (db : LawDB) (now : Nat) (other : Law)
    (habsent : findByActId db a = none) (hother : other.act_id = a) :
    (storeOneLink (SaveOutcome.conflict (some other)) now category db a u =
      (updateFirst (fun l => l.act_id == a) (touchLaw now u) (db ++ [other]),
        StoreStatus.updated)) ∧
    countActId (storeOneLink (SaveOutcome.conflict (some other)) now category db a u).1 a = 1 ∧
    lastSeenOf (storeOneLink (SaveOutcome.conflict (some other)) now category db a u).1 a
        = some now ∧
    (findByActId (storeOneLink (SaveOutcome.conflict (some other)) now category db a u).1 a).map
        Law.detail_url = some u ∧
    (storeOneLink (SaveOutcome.conflict none) now category db a u =
      (db, StoreStatus.error)) ∧
    (∀ (envs : Nat → SaveOutcome) (rest : List (Nat × String)),
      envs 0 = SaveOutcome.conflict none →
      store_link_batch envs now category db ((a, u) :: rest) =
        ((store_link_batch (fun j => envs (j + 1)) now category db rest).1,
          { new := (store_link_batch (fun j => envs (j + 1)) now category db rest).2.new,
            updated := (store_link_batch (fun j => envs (j + 1)) now category db rest).2.updated,
            errors := (store_link_batch (fun j => envs (j + 1)) now category db rest).2.errors + 1 })) := by
  have hfound := findByActId_append_absent habsent hother
  have hcount0 : countActId db a = 0 := countActId_eq_zero_of_absent habsent
  refine ⟨?_, ?_, ?_, ?_, ?_, ?_⟩
  · simp [storeOneLink, habsent]
  · simp only [storeOneLink, habsent]
    rw [show countActId (updateFirst (fun l => l.act_id == a)
          (touchLaw now u) (db ++ [other])) a =
        countActId (db ++ [other]) a from
      updateFirst_countP _ _ _ (fun x => by simp [touchLaw]) _]
    rw [countActId_append]
    simp [hcount0, hother]
  · simp only [storeOneLink, habsent]
    have := findByActId_updateFirst (db ++ [other]) a
      (touchLaw now u) (fun x => by simp [touchLaw]) hfound
    simp [lastSeenOf, this, touchLaw]
  · simp only [storeOneLink, habsent]
    have := findByActId_updateFirst (db ++ [other]) a
      (touchLaw now u) (fun x => by simp [touchLaw]) hfound
    simp [this, touchLaw]
  · simp [storeOneLink, habsent]
  · intro envs rest henv
    show storeLinkBatchGo envs now category 0 db { } ((a, u) :: rest) = _
    simp only [storeLinkBatchGo, henv, storeOneLink, habsent]
    rw [storeLinkBatchGo_shift, storeLinkBatchGo_stats]
    show (_, StoreStats.add (StoreStats.bump { } StoreStatus.error) _) = _
    refine Prod.ext rfl ?_
    simp [StoreStats.add, StoreStats.bump, store_link_batch]
    omega

/-- C2, witness: the theorem applied at a concrete store, racing row
and batch. -/
theorem c2_conflict_recovery_witness :
    (findByActId [] 3 = none) ∧
    ((3 : Nat) = 3) ∧
    (storeOneLink (SaveOutcome.conflict none) 11 "LocalInstActs" [] 3 "v" =
      ([], StoreStatus.error)) :=
  ⟨by decide, rfl,
    (c2_conflict_recovery 3 "v" "LocalInstActs" [] 11
      { id := 1, act_id := 3, category := "LocalInstActs", detail_url := "w" }
      (by decide) rfl).2.2.2.2.1⟩

/-! C4 and C5: behaviour of the retry transport. -/

/-- Shared computation: with max_retries = 3 and a function failing on
every attempt, retry_with_backoff makes exactly 3 calls, sleeps the two
computed backoff delays, and surfaces the last error. -/
theorem retryAllFail (cfg : RetryConfig) (es : Nat → ε) (f : Nat → Except ε α)
    (h3 : cfg.max_retries = 3) (hf : ∀ k, f k = Except.error (es k)) :
    retry_with_backoff cfg f =
      { result := Except.error (some (es 2)), attemptsMade := 3,
        sleeps := [backoffDelay cfg 0, backoffDelay cfg 1] } := by
  show retryGo cfg f 0 cfg.max_retries = _
  rw [h3]
  simp [retryGo, hf 0, hf 1, hf 2]

/-- C4, claim theorem.  A transport configured with max_retries = 3
whose wrapped operation fails on every attempt performs exactly 3
attempts, sleeps between consecutive attempts for the computed delays
d_k = min(base_delay * exponential_base ^ k, max_delay) for k = 0 and
k = 1, and terminates surfacing the last error; the total sleep time of
the run is exactly the sum of those two computed delays (so the elapsed
wall-clock time is at least that sum). -/
theorem c4_retry_bound (cfg : RetryConfig) (es : Nat → ε) (f : Nat → Except ε α)
    (h3 : cfg.max_retries = 3) (hf : ∀ k, f k = Except.error (es k)) :
    retry_with_backoff cfg f =
      { result := Except.error (some (es 2)), attemptsMade := 3,
        sleeps := [min (cfg.base_delay * cfg.exponential_base ^ 0) cfg.max_delay,
                   min (cfg.base_delay * cfg.exponential_base ^ 1) cfg.max_delay] } ∧
    (retry_with_backoff cfg f).sleeps.sum =
      backoffDelay cfg 0 + backoffDelay cfg 1 := by
  have h := retryAllFail cfg es f h3 hf
  constructor
  · rw [h]; rfl
  · rw [h]; simp

/-- C4, witness: default RetryConfig (max_retries = 3, base 1,
multiplier 2, cap 60) and an always-failing operation; the two sleeps
are 1s and 2s. -/
theorem c4_retry_bound_witness :
    (({ } : RetryConfig).max_retries = 3) ∧
    (∀ k, (fun k => (Except.error k : Except Nat Unit)) k = Except.error k) ∧
    (retry_with_backoff { } (fun k => (Except.error k : Except Nat Unit)) =
      { result := Except.error (some 2), attemptsMade := 3,
        sleeps := [min ((1 : ℚ) * 2 ^ 0) 60, min ((1 : ℚ) * 2 ^ 1) 60] } ∧
     (retry_with_backoff { } (fun k => (Except.error k : Except Nat Unit))).sleeps.sum =
        backoffDelay { } 0 + backoffDelay { } 1) :=
  ⟨rfl, fun _ => rfl,
    c4_retry_bound { } (fun k => k) (fun k => Except.error k) rfl (fun _ => rfl)⟩

/-- C5, counterexample.  A response with the non-retryable client error
status 404 on every underlying call: with the default configuration the
transport performs 3 attempts and sleeps twice before failing, instead
of failing immediately after one attempt with no backoff sleep as the
claim states. -/
theorem c5_counterexample :
    httpClientGet { } (fun _ => HttpOutcome.httpStatus 404) =
      { result := Except.error (some (HttpError.statusError 404)),
        attemptsMade := 3, sleeps := [1, 2] } ∧
    ¬ ((httpClientGet { } (fun _ => HttpOutcome.httpStatus 404)).attemptsMade = 1 ∧
       (httpClientGet { } (fun _ => HttpOutcome.httpStatus 404)).sleeps = []) := by
  have h := retryAllFail { } (fun _ => HttpError.statusError 404)
    (fun k => getAttempt (HttpOutcome.httpStatus 404)) rfl (fun _ => rfl)
  have h2 : httpClientGet { } (fun _ => HttpOutcome.httpStatus 404) =
      { result := Except.error (some (HttpError.statusError 404)),
        attemptsMade := 3,
        sleeps := [backoffDelay { } 0, backoffDelay { } 1] } := h
  constructor
  · rw [h2]
    norm_num [backoffDelay]
  · rw [h2]
    simp

/-- C5, amended claim theorem.  The transport does not distinguish
transient from non-transient failures: with max_retries = 3, a request
answered by any fixed 4xx client-error status on every attempt is
retried like a transient failure — 3 attempts with the two computed
backoff sleeps in between — and only then fails, surfacing that
status. -/
theorem c5_retry_on_4xx (cfg : RetryConfig) (s : Nat)
    (outcomes : Nat → HttpOutcome) (h3 : cfg.max_retries = 3)
    (hs : 400 ≤ s) (hout : ∀ k, outcomes k = HttpOutcome.httpStatus s) :
    httpClientGet cfg outcomes =
      { result := Except.error (some (HttpError.statusError s)),
        attemptsMade := 3,
        sleeps := [backoffDelay cfg 0, backoffDelay cfg 1] } := by
  have := retryAllFail cfg (fun _ => HttpError.statusError s)
    (fun k => getAttempt (outcomes k)) h3
    (fun k => by show getAttempt (outcomes k) =
        Except.error (HttpError.statusError s); rw [hout k]; rfl)
  exact this

/-- C5, witness for the amended theorem: default configuration and a
permanent 404. -/
theorem c5_retry_on_4xx_witness :
    (({ } : RetryConfig).max_retries = 3) ∧ (400 ≤ 404) ∧
    httpClientGet { } (fun _ => HttpOutcome.httpStatus 404) =
      { result := Except.error (some (HttpError.statusError 404)),
        attemptsMade := 3,
        sleeps := [backoffDelay { } 0, backoffDelay { } 1] } :=
  ⟨rfl, by omega,
    c5_retry_on_4xx { } 404 (fun _ => HttpOutcome.httpStatus 404) rfl
      (by omega) (fun _ => rfl)⟩

/-! ## PaginationWalker: DiscoveryProcessor._fetch_category_links
(pipeline/discovery/discover_laws.py, lines 68-160) -/

/-- Decidable check that the sequence sub occurs contiguously in s
(the Python `in` operator on strings, over character lists). -/
def listContainsSeq [BEq α] (sub : List α) : List α → Bool
  | [] => sub.isEmpty
  | a :: rest => List.isPrefixOf sub (a :: rest) || listContainsSeq sub rest

/-- Characters of a string lowercased (the Python str.lower, restricted
to the ASCII range that Char.toLower handles). -/
def lowerChars (s : String) : List Char :=
  s.data.map Char.toLower

/-- The "next" pagination control as the walker sees it: the disabled
attribute, the class list, the href attribute ("" when absent) and the
parent element class list. -/
structure NextButton where
  disabledAttr : Bool := false
  classes : List String := []
  href : String := ""
  parentClasses : List String := []
deriving Repr, DecidableEq

/-- The disabled-state indicator class names used by
DiscoveryProcessor._is_next_button_disabled. -/
def disabledIndicators : List String := ["disabled", "aspNetDisabled", "inactive"]

/-- DiscoveryProcessor._is_next_button_disabled from
pipeline/discovery/discover_laws.py (lines 233-268). -/
def is_next_button_disabled (b : NextButton) : Bool :=
  if b.disabledAttr then true
  else if disabledIndicators.any (fun ind => b.classes.contains ind) then true
  else if b.href = "" ||
      (List.isPrefixOf "javascript:__doPostBack".data b.href.data &&
        listContainsSeq "disabled".data (lowerChars b.href)) then true
  else if disabledIndicators.any (fun ind => b.parentClasses.contains ind) then true
  else false

/-- One listing page: the item links extracted by
_extract_links_from_page as (act_id, detail_url) pairs, and the "next"
control found by soup.find, if any. -/
structure Page where
  links : List (Nat × String)
  nextButton : Option NextButton
deriving Repr, DecidableEq

/-- State of the pagination loop: the accumulated links, the page_count
and consecutive_empty_pages counters, and the number of pagination POST
requests issued so far (so `pages posts` is the current page). -/
structure WalkState where
  allLinks : List (Nat × String)
  pageCount : Nat
  consecutiveEmpty : Nat
  posts : Nat
deriving Repr, DecidableEq

/-- The max_pages safety limit of _fetch_category_links. -/
def maxPages : Nat := 200

/-- The `while page_count < max_pages` pagination loop of
_fetch_category_links.  `pages i` is the page obtained after i
pagination POSTs (`pages 0` is the initial GET response); all fetches
are modelled as succeeding.  The fuel argument only bounds recursion
depth; 700 iterations always suffice (each iteration either raises
pageCount, capped at 200, or raises consecutiveEmpty, capped at 3). -/
def fetchLoop (pages : Nat → Page) : Nat → WalkState → WalkState
  | 0, s => s
  | fuel + 1, s =>
    if s.pageCount < maxPages then
      match (pages s.posts).nextButton with
      | none => s
      | some btn =>
        if is_next_button_disabled btn then s
        else
          let newLinks := (pages (s.posts + 1)).links
          if newLinks.isEmpty then
            if s.consecutiveEmpty + 1 ≥ 3 then
              { s with consecutiveEmpty := s.consecutiveEmpty + 1,
                       posts := s.posts + 1 }
            else
              fetchLoop pages fuel
                { s with consecutiveEmpty := s.consecutiveEmpty + 1,
                         posts := s.posts + 1 }
          else
            fetchLoop pages fuel
              { s with allLinks := s.allLinks ++ newLinks,
                       pageCount := s.pageCount + 1,
                       consecutiveEmpty := 0,
                       posts := s.posts + 1 }
    else s

/-- The final deduplication of _fetch_category_links: a dict keyed by
act_id keeps the first occurrence of every truthy act_id; the result is
the values in insertion order. -/
def dedupLinksGo : List (Nat × String) → List Nat → List (Nat × String)
  | [], _ => []
  | (a, u) :: rest, seen =>
    if a ≠ 0 && !(seen.contains a) then
      (a, u) :: dedupLinksGo rest (a :: seen)
    else
      dedupLinksGo rest seen

/-- Deduplicate by act_id, first occurrence wins. -/
def dedupLinks (links : List (Nat × String)) : List (Nat × String) :=
  dedupLinksGo links []

/-- DiscoveryProcessor._fetch_category_links: initial page, pagination
loop, deduplication.  Returns the unique links and the page_count. -/
def fetch_category_links (pages : Nat → Page) : List (Nat × String) × Nat :=
  let s0 : WalkState :=
    { allLinks := (pages 0).links, pageCount := 1, consecutiveEmpty := 0,
      posts := 0 }
  let final := fetchLoop pages 700 s0
  (dedupLinks final.allLinks, final.pageCount)

/-- Concatenation of the link lists of pages start, start+1, ...,
start+m-1. -/
def pageLinksRange (pages : Nat → Page) : Nat → Nat → List (Nat × String)
  | _, 0 => []
  | start, m + 1 => (pages start).links ++ pageLinksRange pages (start + 1) m

/-- Main run lemma for the pagination loop: from a state with a zeroed
empty-page counter, if the next m pages are reachable (current page and
the m-1 after it have enabled next controls), every fetched page is
non-empty, the page ceiling is not hit, and the page after those m
fetches has no enabled next control, then the loop performs exactly m
fetches and stops. -/
theorem fetchLoopRun (pages : Nat → Page) :
    ∀ (m fuel : Nat) (s : WalkState),
      m < fuel →
      (∀ j, j < m → ∃ b, (pages (s.posts + j)).nextButton = some b ∧
        is_next_button_disabled b = false) →
      (∀ j, j < m → (pages (s.posts + j + 1)).links ≠ []) →
      s.pageCount + m ≤ maxPages →
      s.consecutiveEmpty = 0 →
      (∀ b, (pages (s.posts + m)).nextButton = some b →
        is_next_button_disabled b = true) →
      fetchLoop pages fuel s =
        { allLinks := s.allLinks ++ pageLinksRange pages (s.posts + 1) m,
          pageCount := s.pageCount + m, consecutiveEmpty := 0,
          posts := s.posts + m } := by
  intro m
  induction m with
  | zero =>
    intro fuel s hfuel _ _ hcnt hcons hstop
    obtain ⟨fuel, rfl⟩ : ∃ f, fuel = f + 1 :=
      ⟨fuel - 1, (Nat.succ_pred_eq_of_pos hfuel).symm⟩
    simp only [fetchLoop]
    by_cases hlt : s.pageCount < maxPages
    · rw [if_pos hlt]
      cases hbtn : (pages (s.posts + 0)).nextButton with
      | none =>
        cases s
        simp_all [pageLinksRange]
      | some b =>
        have hd := hstop b hbtn
        rw [show (pages s.posts).nextButton = some b by
          simpa using hbtn]
        simp only [hd, if_true]
        cases s
        simp_all [pageLinksRange]
    · rw [if_neg hlt]
      cases s
      simp_all [pageLinksRange]
  | succ m ih =>
    intro fuel s hfuel hen hne hcnt hcons hstop
    obtain ⟨fuel, rfl⟩ : ∃ f, fuel = f + 1 :=
      ⟨fuel - 1, (Nat.succ_pred_eq_of_pos (by omega)).symm⟩
    simp only [fetchLoop]
    have hlt : s.pageCount < maxPages := by
      have := hcnt
      unfold maxPages at *
      omega
    rw [if_pos hlt]
    obtain ⟨b, hb, hben⟩ := hen 0 (by omega)
    rw [show (pages s.posts).nextButton = some b by simpa using hb]
    simp only [hben, Bool.false_eq_true, if_false]
    have hne0 : (pages (s.posts + 1)).links ≠ [] := by
      simpa using hne 0 (by omega)
    rw [if_neg (by simpa [List.isEmpty_iff] using hne0)]
    rw [ih fuel _ (by omega) ?hen ?hne
      (by show s.pageCount + 1 + m ≤ maxPages; omega) rfl ?hstop]
    case hen =>
      intro j hj
      have := hen (j + 1) (by omega)
      simpa [Nat.add_assoc, Nat.add_comm 1 j] using this
    case hne =>
      intro j hj
      have := hne (j + 1) (by omega)
      simpa [Nat.add_assoc, Nat.add_comm 1 j] using this
    case hstop =>
      intro b2 hb2
      apply hstop b2
      simpa [Nat.add_assoc, Nat.add_comm 1 m] using hb2
    simp [pageLinksRange, List.append_assoc]
    constructor
    · omega
    · omega

/-- C3, claim theorem.  Fed a page stream whose pages 1..N-1 carry an
enabled next control, whose pages 2..N are non-empty, and whose page N
has a disabled next control, the walker halts at page N (page_count =
N) and returns the links of pages 1..N deduplicated by act_id with the
first occurrence winning — it stops because the disabled control, the
first DONE condition to trigger, ends the loop before the 200-page
ceiling or the 3-consecutive-empty-pages rule can. -/
theorem c3_pagination_termination (pages : Nat → Page) (N : Nat)
    (hN : 1 ≤ N) (hmax : N ≤ maxPages)
    (hen : ∀ j, j < N - 1 → ∃ b, (pages j).nextButton = some b ∧
      is_next_button_disabled b = false)
    (hne : ∀ j, 1 ≤ j → j < N → (pages j).links ≠ [])
    (hdis : ∃ b, (pages (N - 1)).nextButton = some b ∧
      is_next_button_disabled b = true) :
    fetch_category_links pages = (dedupLinks (pageLinksRange pages 0 N), N) := by
  obtain ⟨m, rfl⟩ : ∃ m, N = m + 1 :=
    ⟨N - 1, (Nat.succ_pred_eq_of_pos hN).symm⟩
  obtain ⟨bN, hbN, hdN⟩ := hdis
  show (dedupLinks (fetchLoop pages 700
      { allLinks := (pages 0).links, pageCount := 1, consecutiveEmpty := 0,
        posts := 0 }).allLinks,
    (fetchLoop pages 700
      { allLinks := (pages 0).links, pageCount := 1, consecutiveEmpty := 0,
        posts := 0 }).pageCount) = _
  rw [fetchLoopRun pages m 700
    { allLinks := (pages 0).links, pageCount := 1, consecutiveEmpty := 0,
      posts := 0 }
    (by unfold maxPages at hmax; omega)
    (by intro j hj; simpa using hen j (by omega))
    (by intro j hj
        have := hne (j + 1) (by omega) (by omega)
        simpa using this)
    (by simpa [Nat.add_comm] using hmax)
    rfl
    (by intro b hb
        simp only [Nat.zero_add] at hb
        have : b = bN := by
          have h2 : some b = some bN := by
            rw [← hb]
            simpa using hbN
          simpa using h2
        rw [this]; exact hdN)]
  simp [pageLinksRange, Nat.add_comm]

/-- Concrete two-page stream for the C3 witness: page 1 has one link
and an enabled next control, page 2 has one link and a disabled next
control. -/
def c3pages : Nat → Page := fun n =>
  match n with
  | 0 => { links := [(1, "ActDetail.aspx?ActID=1")],
           nextButton := some { href := "javascript:__doPostBack(n)" } }
  | 1 => { links := [(2, "ActDetail.aspx?ActID=2")],
           nextButton := some { disabledAttr := true } }
  | _ => { links := [], nextButton := none }

set_option maxRecDepth 8000

/-- C3, witness: the theorem applied to the concrete two-page stream;
the walker halts at page 2 with both links. -/
theorem c3_pagination_termination_witness :
    fetch_category_links c3pages = (dedupLinks (pageLinksRange c3pages 0 2), 2) :=
  c3_pagination_termination c3pages 2 (by omega) (by unfold maxPages; omega)
    (by intro j hj
        have hj0 : j = 0 := by omega
        subst hj0
        exact ⟨{ href := "javascript:__doPostBack(n)" }, rfl, by decide⟩)
    (by intro j h1 h2
        have hj1 : j = 1 := by omega
        subst hj1
        decide)
    ⟨{ disabledAttr := true }, rfl, by decide⟩

/-- Concrete stream for C10: page 1 non-empty, page 2 empty but with an
enabled next control, page 3 non-empty with a disabled next control. -/
def c10pages : Nat → Page := fun n =>
  match n with
  | 0 => { links := [(1, "u1")],
           nextButton := some { href := "javascript:__doPostBack(a)" } }
  | 1 => { links := [],
           nextButton := some { href := "javascript:__doPostBack(b)" } }
  | 2 => { links := [(2, "u2")],
           nextButton := some { disabledAttr := true } }
  | _ => { links := [], nextButton := none }

/-- C10, claim theorem.  In the pagination loop: (1) an iteration whose
fetched page has zero links leaves page_count and the accumulated links
unchanged and only increments consecutive_empty_pages; (2) an iteration
whose fetched page has links increments page_count and resets
consecutive_empty_pages; (3) page_count never exceeds the 200-page
ceiling, whatever the stream; (4) on a concrete stream with an empty
middle page, the walk issues 3 page requests (1 + posts) but counts
only 2 pages — the ceiling bounds non-empty pages, not requests. -/
theorem c10_empty_pages_not_counted :
    (∀ (pages : Nat → Page) (fuel : Nat) (s : WalkState) (b : NextButton),
      s.pageCount < maxPages →
      (pages s.posts).nextButton = some b →
      is_next_button_disabled b = false →
      (pages (s.posts + 1)).links = [] →
      s.consecutiveEmpty + 1 < 3 →
      fetchLoop pages (fuel + 1) s =
        fetchLoop pages fuel
          { s with consecutiveEmpty := s.consecutiveEmpty + 1,
                   posts := s.posts + 1 }) ∧
    (∀ (pages : Nat → Page) (fuel : Nat) (s : WalkState) (b : NextButton),
      s.pageCount < maxPages →
      (pages s.posts).nextButton = some b →
      is_next_button_disabled b = false →
      (pages (s.posts + 1)).links ≠ [] →
      fetchLoop pages (fuel + 1) s =
        fetchLoop pages fuel
          { s with allLinks := s.allLinks ++ (pages (s.posts + 1)).links,
                   pageCount := s.pageCount + 1, consecutiveEmpty := 0,
                   posts := s.posts + 1 }) ∧
    (∀ (pages : Nat → Page) (fuel : Nat) (s : WalkState),
      s.pageCount ≤ maxPages →
      (fetchLoop pages fuel s).pageCount ≤ maxPages) ∧
    (fetchLoop c10pages 700
        { allLinks := [(1, "u1")], pageCount := 1, consecutiveEmpty := 0,
          posts := 0 } =
      { allLinks := [(1, "u1"), (2, "u2")], pageCount := 2,
        consecutiveEmpty := 0, posts := 2 } ∧ 2 < 1 + 2) := by
  refine ⟨?_, ?_, ?_, ?_, ?_⟩
  · intro pages fuel s b hlt hb hben hempty hc
    simp only [fetchLoop, if_pos hlt, hb, hben, Bool.false_eq_true, if_false]
    rw [if_pos (by simpa [List.isEmpty_iff] using hempty)]
    rw [if_neg (by omega)]
  · intro pages fuel s b hlt hb hben hne
    simp only [fetchLoop, if_pos hlt, hb, hben, Bool.false_eq_true, if_false]
    rw [if_neg (by simpa [List.isEmpty_iff] using hne)]
  · intro pages fuel
    induction fuel with
    | zero => intro s h; exact h
    | succ fuel ih =>
      intro s h
      simp only [fetchLoop]
      by_cases hlt : s.pageCount < maxPages
      · rw [if_pos hlt]
        cases hbtn : (pages s.posts).nextButton with
        | none => exact h
        | some b =>
          by_cases hd : is_next_button_disabled b
          · simp only [hd, if_true]; exact h
          · simp only [hd, Bool.false_eq_true, if_false]
            by_cases he : ((pages (s.posts + 1)).links).isEmpty
            · rw [if_pos he]
              by_cases hc : s.consecutiveEmpty + 1 ≥ 3
              · rw [if_pos hc]; exact h
              · rw [if_neg hc]; exact ih _ h
            · rw [if_neg he]
              exact ih _ (by show s.pageCount + 1 ≤ maxPages
                             unfold maxPages at *
                             omega)
      · rw [if_neg hlt]; exact h
  · decide
  · omega

/-- C10, witness: the empty-page step of the theorem applied to the
concrete stream at page 2 — the page counter stays at 1 while the
consecutive-empty counter becomes 1. -/
theorem c10_empty_pages_not_counted_witness :
    ((1 : Nat) < maxPages ∧ (c10pages 1).links = [] ∧ 0 + 1 < 3) ∧
    fetchLoop c10pages 11
        { allLinks := [(1, "u1")], pageCount := 1, consecutiveEmpty := 0,
          posts := 0 } =
      fetchLoop c10pages 10
        { allLinks := [(1, "u1")], pageCount := 1, consecutiveEmpty := 1,
          posts := 1 } :=
  ⟨⟨by decide, rfl, by decide⟩,
    c10_empty_pages_not_counted.1 c10pages 10
      { allLinks := [(1, "u1")], pageCount := 1, consecutiveEmpty := 0,
        posts := 0 }
      { href := "javascript:__doPostBack(a)" }
      (by decide) rfl (by decide) rfl (by decide)⟩

/-! ## BatchScheduler chunking: ThreadedBatchProcessor.process_batch
(pipeline/base.py, lines 240-248) -/

/-- The list comprehension
[items[i:i + chunk_size] for i in range(0, len(items), chunk_size)],
written with fuel (items.length iterations always suffice when the
chunk size is positive). -/
def chunkListGo : Nat → List α → Nat → List (List α)
  | 0, _, _ => []
  | _ + 1, [], _ => []
  | fuel + 1, x :: xs, cs => (x :: xs).take cs :: chunkListGo fuel ((x :: xs).drop cs) cs

/-- Split a list into consecutive chunks of the given size. -/
def chunkList (items : List α) (cs : Nat) : List (List α) :=
  chunkListGo items.length items cs

/-- ThreadedBatchProcessor.process_batch chunking:
chunk_size = max(1, len(items) // self.max_workers). -/
def process_batch_chunks (items : List α) (max_workers : Nat) : List (List α) :=
  chunkList items (Nat.max 1 (items.length / max_workers))

theorem chunkListGo_flatten {cs : Nat} (hcs : 1 ≤ cs) :
    ∀ (fuel : Nat) (items : List α), items.length ≤ fuel →
      (chunkListGo fuel items cs).flatten = items := by
  intro fuel
  induction fuel with
  | zero =>
    intro items h
    have : items = [] := List.eq_nil_of_length_eq_zero (by omega)
    subst this
    rfl
  | succ fuel ih =>
    intro items h
    match items with
    | [] => rfl
    | x :: xs =>
      simp only [chunkListGo, List.flatten_cons]
      rw [ih ((x :: xs).drop cs) (by simp only [List.length_drop, List.length_cons] at h ⊢; omega)]
      exact List.take_append_drop cs (x :: xs)

theorem chunkListGo_mem_bound {cs : Nat} (hcs : 1 ≤ cs) :
    ∀ (fuel : Nat) (items : List α), items.length ≤ fuel →
      ∀ c ∈ chunkListGo fuel items cs, c ≠ [] ∧ c.length ≤ cs := by
  intro fuel
  induction fuel with
  | zero => intro items h c hc; simp [chunkListGo] at hc
  | succ fuel ih =>
    intro items h c hc
    match items with
    | [] => simp [chunkListGo] at hc
    | x :: xs =>
      simp only [chunkListGo, List.mem_cons] at hc
      rcases hc with hc | hc
      · subst hc
        constructor
        · simp [List.take_eq_nil_iff]; omega
        · simpa using List.length_take_le cs (x :: xs)
      · exact ih ((x :: xs).drop cs) (by simp only [List.length_drop, List.length_cons] at h ⊢; omega) c hc

theorem chunkListGo_dropLast_full {cs : Nat} (hcs : 1 ≤ cs) :
    ∀ (fuel : Nat) (items : List α), items.length ≤ fuel →
      ∀ c ∈ (chunkListGo fuel items cs).dropLast, c.length = cs := by
  intro fuel
  induction fuel with
  | zero => intro items h c hc; simp [chunkListGo] at hc
  | succ fuel ih =>
    intro items h c hc
    match items with
    | [] => simp [chunkListGo] at hc
    | x :: xs =>
      simp only [chunkListGo] at hc
      cases hrest : chunkListGo fuel ((x :: xs).drop cs) cs with
      | nil => rw [hrest] at hc; simp at hc
      | cons r rs =>
        rw [hrest] at hc
        rw [List.dropLast_cons_of_ne_nil (by simp)] at hc
        rcases List.mem_cons.mp hc with hc | hc
        · subst hc
          have hd : (x :: xs).drop cs ≠ [] := by
            intro hnil
            rw [hnil] at hrest
            cases fuel with
            | zero => simp [chunkListGo] at hrest
            | succ f => simp [chunkListGo] at hrest
          have hlen : cs < (x :: xs).length := by
            by_contra hle
            exact hd (List.drop_eq_nil_of_le (by omega))
          simp only [List.length_cons] at hlen
          simp [List.length_take]
          omega
        · have := ih ((x :: xs).drop cs)
            (by simp only [List.length_drop, List.length_cons] at h ⊢; omega) c
          rw [hrest] at this
          exact this hc

/-- C9, counterexample.  Five items across four workers: the source
computes chunk_size = max(1, 5 // 4) = 1 — not ceil(5/4) = 2 — and
produces five chunks, exceeding the worker count. -/
theorem c9_counterexample :
    process_batch_chunks [1, 2, 3, 4, 5] 4 = [[1], [2], [3], [4], [5]] ∧
    (process_batch_chunks [1, 2, 3, 4, 5] 4).length = 5 ∧
    ¬ ((process_batch_chunks [1, 2, 3, 4, 5] 4).length ≤ 4) ∧
    Nat.max 1 (([1, 2, 3, 4, 5] : List Nat).length / 4) ≠
      (([1, 2, 3, 4, 5] : List Nat).length + 4 - 1) / 4 := by
  refine ⟨by decide, by decide, by decide, by decide⟩

/-- C9, amended claim theorem.  The scheduler splits the items into
consecutive chunks of size max(1, floor(len(items) / workerCount)) —
floor, not ceiling — with every chunk before the last exactly that size
and the last possibly smaller; the chunks are non-empty and concatenate
back to the original list, but their number can exceed the worker
count. -/
theorem c9_chunk_partitioning (items : List α) (max_workers : Nat) :
    (process_batch_chunks items max_workers).flatten = items ∧
    (∀ c ∈ process_batch_chunks items max_workers,
      c ≠ [] ∧ c.length ≤ Nat.max 1 (items.length / max_workers)) ∧
    (∀ c ∈ (process_batch_chunks items max_workers).dropLast,
      c.length = Nat.max 1 (items.length / max_workers)) := by
  have hcs : 1 ≤ Nat.max 1 (items.length / max_workers) := Nat.le_max_left _ _
  exact ⟨chunkListGo_flatten hcs items.length items le_rfl,
    chunkListGo_mem_bound hcs items.length items le_rfl,
    chunkListGo_dropLast_full hcs items.length items le_rfl⟩

/-- C9, witness for the amended theorem: three items over two workers
produce chunks [[10], [20], [30]]; the concatenation and the per-chunk
size facts follow by applying the theorem. -/
theorem c9_chunk_partitioning_witness :
    (process_batch_chunks [10, 20, 30] 2).flatten = [10, 20, 30] ∧
    ([10] ≠ [] ∧ [10].length ≤ Nat.max 1 (([10, 20, 30] : List Nat).length / 2)) :=
  ⟨(c9_chunk_partitioning [10, 20, 30] 2).1,
    (c9_chunk_partitioning [10, 20, 30] 2).2.1 [10] (by decide)⟩

/-! ## Relations: pipeline/relations/backfill_relations.py and
models.py LawRelation -/

/-- A row of the law_relations table (models.py class LawRelation).
The autoincrement id column plays no role in the claims and is
omitted. -/
structure LawRelation where
  source_id : Nat
  target_id : Nat
  relation_type : String
  comment : Option String := none
deriving Repr, DecidableEq

/-- The RELATION_TYPES list of backfill_relations.py. -/
def RELATION_TYPES : List String :=
  ["shfuqizon", "ndryshon", "ndryshohet", "plotëson", "plotësohet",
   "ndryshon pjesërisht", "shfuqizon pjesërisht"]

/-- Python str.strip() over a character list. -/
def trimChars (cs : List Char) : List Char :=
  ((cs.dropWhile Char.isWhitespace).reverse.dropWhile Char.isWhitespace).reverse

/-- detect_relation_type from backfill_relations.py: lowercase and
strip the label, return the first relation type occurring in it as a
substring, defaulting to "related".  The label is passed as a character
list. -/
def detect_relation_type (label : List Char) : String :=
  if label = [] then "related"
  else
    let labelLower := trimChars (label.map Char.toLower)
    match RELATION_TYPES.find? (fun rt => listContainsSeq rt.data labelLower) with
    | some rt => rt
    | none => "related"

/-- extract_act_id from backfill_relations.py: take the text between
"ActID=" and the next "&" and parse it as a number (int() failures give
None; the source would also accept negative numbers, which the caller
then treats as found — no claim depends on that corner). -/
def extract_act_id (href : String) : Option Nat :=
  match (href.splitOn "ActID=").tail.head? with
  | none => none
  | some tail =>
    match (tail.splitOn "&").head? with
    | none => none
    | some idStr => idStr.toNat?

/-- The module-level BASE_URL of backfill_relations.py. -/
def BASE_URL : String := "https://gzk.rks-gov.net/"

/-- urllib.parse.urljoin restricted to the shapes that occur here: an
absolute href is kept, a relative one is resolved against the base. -/
def urljoinModel (base rel : String) : String :=
  if List.isPrefixOf "http".data rel.data then rel else base ++ rel

/-- One div.act_link_box_1 box as the processor reads it: the href of
its ActID link (none when the link or its href is missing) and the text
of its span.span_margin label (none when the element is missing). -/
structure RelationBox where
  href : Option String := none
  label : Option String := none
deriving Repr, DecidableEq

/-- Database state seen by the relation backfill: the laws table and
the law_relations table. -/
structure RelState where
  laws : LawDB
  relations : List LawRelation
deriving Repr, DecidableEq

/-- The existence check plus creation at the end of
process_relation_box: a relation is added only when no row with the
same (source_id, target_id, relation_type) triple exists. -/
def addRelationIfNew (st : RelState) (sid tid : Nat) (rtype cmt : String) :
    RelState × Option String :=
  match st.relations.find? (fun r =>
      r.source_id == sid && r.target_id == tid && r.relation_type == rtype) with
  | some _ => (st, none)
  | none =>
    ({ st with relations := st.relations ++
        [{ source_id := sid, target_id := tid, relation_type := rtype,
           comment := some cmt }] },
      some rtype)

/-- The "Check/create target law record" block of process_relation_box:
the target law is looked up by act_id and lazily created as an
unprocessed stub when absent. -/
def findOrCreateTarget (st : RelState) (source : Law) (href : String)
    (rid : Nat) : RelState :=
  match findByActId st.laws rid with
  | some _ => st
  | none =>
    { st with laws := st.laws ++
        [{ id := nextLawId st.laws, act_id := rid,
           category := source.category,
           detail_url := urljoinModel BASE_URL href,
           unprocessed := true }] }

/-- process_relation_box from backfill_relations.py (lines 168-265):
extract the target act_id from the box link, find or lazily create the
target law as an unprocessed stub, detect the relation type from the
label, and create the relation unless the triple already exists.
Failures at any step leave the relations table unchanged.  The
IntegrityError handlers around the stub insert and the relation insert
are concurrency recovery; in this sequential embedding the existence
checks make them unreachable. -/
def process_relation_box (st : RelState) (source : Law) (box : RelationBox) :
    RelState × Option String :=
  match box.href with
  | none => (st, none)
  | some href =>
    match extract_act_id href with
    | none => (st, none)
    | some rid =>
      if rid = 0 then (st, none)
      else
        match findByActId (findOrCreateTarget st source href rid).laws rid,
            box.label with
        | none, _ => (findOrCreateTarget st source href rid, none)
        | some _, none => (findOrCreateTarget st source href rid, none)
        | some target, some rawLabel =>
          if (trimChars rawLabel.data).map Char.toLower = [] then
            (findOrCreateTarget st source href rid, none)
          else
            addRelationIfNew (findOrCreateTarget st source href rid)
              source.id target.id
              (detect_relation_type ((trimChars rawLabel.data).map Char.toLower))
              (String.mk ((trimChars rawLabel.data).map Char.toLower))

/-- The per-law loop of process_law_relations: every relation box of
the fetched detail page is processed, counting created relations. -/
def process_law_relations (st : RelState) (source : Law)
    (boxes : List RelationBox) : RelState × Nat :=
  boxes.foldl
    (fun acc box =>
      let r := process_relation_box acc.1 source box
      (r.1, acc.2 + (if r.2.isSome then 1 else 0)))
    (st, 0)

/-- One backfill run (backfill_relations): every queried law is
processed against the boxes of its detail page. -/
def backfillRun (st : RelState) (jobs : List (Law × List RelationBox)) :
    RelState :=
  jobs.foldl (fun s job => (process_law_relations s job.1 job.2).1) st

/-- Any number of backfill runs in sequence. -/
def backfillRuns (st : RelState) (runs : List (List (Law × List RelationBox))) :
    RelState :=
  runs.foldl backfillRun st

/-- Two relation rows carry the same (source_id, target_id,
relation_type) triple. -/
def tripleEq (r1 r2 : LawRelation) : Prop :=
  r1.source_id = r2.source_id ∧ r1.target_id = r2.target_id ∧
    r1.relation_type = r2.relation_type

instance : DecidablePred fun p : LawRelation × LawRelation => tripleEq p.1 p.2 :=
  fun _ => by unfold tripleEq; infer_instance

/-- The table invariant backed by the uq_relation unique constraint: no
two rows share a triple. -/
def NoDupTriples (rels : List LawRelation) : Prop :=
  rels.Pairwise (fun r1 r2 => ¬ tripleEq r1 r2)

instance (rels : List LawRelation) : Decidable (NoDupTriples rels) := by
  unfold NoDupTriples tripleEq
  infer_instance

theorem findOrCreateTarget_relations (st : RelState) (source : Law)
    (href : String) (rid : Nat) :
    (findOrCreateTarget st source href rid).relations = st.relations := by
  unfold findOrCreateTarget
  split <;> rfl

theorem noDupTriples_addRelationIfNew {st : RelState} (sid tid : Nat)
    (rtype cmt : String) (h : NoDupTriples st.relations) :
    NoDupTriples (addRelationIfNew st sid tid rtype cmt).1.relations := by
  unfold addRelationIfNew
  split
  · exact h
  next hfind =>
    simp only [NoDupTriples]
    rw [List.pairwise_append]
    refine ⟨h, List.pairwise_singleton _ _, ?_⟩
    intro a ha b hb
    have hb2 := List.mem_singleton.mp hb
    subst hb2
    have hnot := List.find?_eq_none.mp hfind a ha
    intro hteq
    apply hnot
    obtain ⟨h1, h2, h3⟩ := hteq
    simp only at h1 h2 h3
    simp [h1, h2, h3]

theorem noDupTriples_process_relation_box {st : RelState} (source : Law)
    (box : RelationBox) (h : NoDupTriples st.relations) :
    NoDupTriples (process_relation_box st source box).1.relations := by
  have hfc : ∀ href rid,
      NoDupTriples (findOrCreateTarget st source href rid).relations := by
    intro href rid
    rw [findOrCreateTarget_relations]
    exact h
  unfold process_relation_box
  split
  · exact h
  split
  · exact h
  split
  · exact h
  split
  · exact hfc _ _
  · exact hfc _ _
  split
  · exact hfc _ _
  · exact noDupTriples_addRelationIfNew _ _ _ _ (hfc _ _)

theorem noDupTriples_process_law_relations {st : RelState} (source : Law)
    (boxes : List RelationBox) (h : NoDupTriples st.relations) :
    NoDupTriples (process_law_relations st source boxes).1.relations := by
  unfold process_law_relations
  suffices hgen : ∀ (acc : RelState × Nat), NoDupTriples acc.1.relations →
      NoDupTriples ((boxes.foldl
        (fun acc box =>
          let r := process_relation_box acc.1 source box
          (r.1, acc.2 + (if r.2.isSome then 1 else 0))) acc).1).relations by
    exact hgen (st, 0) h
  induction boxes with
  | nil => intro acc hacc; exact hacc
  | cons b bs ih =>
    intro acc hacc
    exact ih _ (noDupTriples_process_relation_box source b hacc)

theorem noDupTriples_backfillRun {st : RelState}
    (jobs : List (Law × List RelationBox)) (h : NoDupTriples st.relations) :
    NoDupTriples (backfillRun st jobs).relations := by
  induction jobs generalizing st with
  | nil => exact h
  | cons j js ih =>
    exact ih (noDupTriples_process_law_relations j.1 j.2 h)

theorem countP_le_one_of_noDup {rels : List LawRelation}
    (h : NoDupTriples rels) (s t : Nat) (ty : String) :
    rels.countP (fun r =>
      r.source_id == s && r.target_id == t && r.relation_type == ty) ≤ 1 := by
  induction rels with
  | nil => simp
  | cons r rs ih =>
    have hpw := List.pairwise_cons.mp h
    rw [List.countP_cons]
    by_cases hr : (r.source_id == s && r.target_id == t &&
        r.relation_type == ty) = true
    · have hzero : rs.countP (fun x =>
          x.source_id == s && x.target_id == t && x.relation_type == ty) = 0 := by
        rw [List.countP_eq_zero]
        intro x hx hmatch
        apply hpw.1 x hx
        simp only [Bool.and_eq_true, beq_iff_eq] at hr hmatch
        exact ⟨by rw [hr.1.1, hmatch.1.1], by rw [hr.1.2, hmatch.1.2],
          by rw [hr.2, hmatch.2]⟩
      rw [hzero]
      simp [hr]
    · have hle : rs.countP (fun x =>
          x.source_id == s && x.target_id == t && x.relation_type == ty) ≤ 1 :=
        ih hpw.2
      have hr2 : (r.source_id == s && r.target_id == t &&
          r.relation_type == ty) = false := by
        simpa using hr
      rw [hr2]
      simpa using hle

/-- C6, claim theorem.  Starting from a relations table with no
duplicate (source_id, target_id, relation_type) triples, any number of
backfill runs preserves that invariant: relation creation checks for an
existing row with the triple and skips creation when found, so
afterwards every triple is carried by at most one row. -/
theorem c6_no_duplicate_relations (st : RelState)
    (runs : List (List (Law × List RelationBox)))
    (h : NoDupTriples st.relations) :
    NoDupTriples (backfillRuns st runs).relations ∧
    ∀ s t ty, (backfillRuns st runs).relations.countP
      (fun r => r.source_id == s && r.target_id == t &&
        r.relation_type == ty) ≤ 1 := by
  have hmain : NoDupTriples (backfillRuns st runs).relations := by
    unfold backfillRuns
    induction runs generalizing st with
    | nil => exact h
    | cons r rs ih => exact ih _ (noDupTriples_backfillRun r h)
  exact ⟨hmain, fun s t ty => countP_le_one_of_noDup hmain s t ty⟩

/-- Concrete backfill scenario for the C6 witness: one processed law
whose detail page shows one relation box pointing at act 5. -/
def c6source : Law :=
  { id := 1, act_id := 9, category := "LocalInstActs",
    detail_url := "ActDetail.aspx?ActID=9", unprocessed := false }

/-- C6, witness: the theorem applied to an empty relations table and
two identical backfill runs over the concrete scenario. -/
theorem c6_no_duplicate_relations_witness :
    NoDupTriples ([] : List LawRelation) ∧
    (NoDupTriples (backfillRuns { laws := [c6source], relations := [] }
        [[(c6source, [{ href := some "ActDetail.aspx?ActID=5",
                        label := some "Shfuqizon" }])],
         [(c6source, [{ href := some "ActDetail.aspx?ActID=5",
                        label := some "Shfuqizon" }])]]).relations ∧
      ∀ s t ty, (backfillRuns { laws := [c6source], relations := [] }
        [[(c6source, [{ href := some "ActDetail.aspx?ActID=5",
                        label := some "Shfuqizon" }])],
         [(c6source, [{ href := some "ActDetail.aspx?ActID=5",
                        label := some "Shfuqizon" }])]]).relations.countP
        (fun r => r.source_id == s && r.target_id == t &&
          r.relation_type == ty) ≤ 1) :=
  ⟨List.Pairwise.nil,
    c6_no_duplicate_relations { laws := [c6source], relations := [] }
      [[(c6source, [{ href := some "ActDetail.aspx?ActID=5",
                      label := some "Shfuqizon" }])],
       [(c6source, [{ href := some "ActDetail.aspx?ActID=5",
                      label := some "Shfuqizon" }])]]
      List.Pairwise.nil⟩

/-! ## DocumentExtractor: EUDetailProcessor._process_text
(eu_pipeline/detail.py, lines 147-215) and
DetailProcessor._extract_text_from_pdf
(pipeline/detail/process_laws.py, lines 258-312) -/

/-- A row of the eu_laws table (eu_pipeline/models.py class EULaw). -/
structure EULaw where
  id : Nat
  celex_id : String
  title : Option String := none
  law_type : Option String := none
  year : Option String := none
  document_number : Option String := none
  publish_date : Option Nat := none
  detail_url : String
  pdf_downloaded : Bool := false
  pdf_path : Option String := none
  last_seen_at : Option Nat := none
  processed_at : Option Nat := none
  unprocessed : Bool := true
  pdf_text : Option String := none
  pdf_text_extracted_at : Option Nat := none
deriving Repr, DecidableEq

/-- The extraction stages the fallback chain can attempt, in the
spec's vocabulary: primary-page text (EN/TXT), alternate-view text
(EN/ALL), native PDF text extraction, OCR. -/
inductive ExtractStep where
  | primary
  | alternate
  | nativePdf
  | ocr
deriving Repr, DecidableEq

/-- What the outside world answers during one _process_text run:
the container text of the EN/TXT page (none models the unavailable
marker, a missing container, or a fetch error), the container text of
the EN/ALL page, the PDF link found on the detail page, and the
pdfminer extract_text output for the downloaded file (none models an
extraction exception). -/
structure EUTextEnv where
  primaryText : Option String := none
  altText : Option String := none
  pdfLink : Option String := none
  pdfText : Option String := none
deriving Repr, DecidableEq

/-- The "PDF fallback" block of EUDetailProcessor._process_text: find
a PDF link, download (setting pdf_downloaded/pdf_path), run native
text extraction, accept non-blank output. -/
def eu_process_text_pdf (env : EUTextEnv) (law : EULaw) (now : Nat) :
    EULaw × Bool × List ExtractStep :=
  match env.pdfLink with
  | none => (law, false, [ExtractStep.primary, ExtractStep.alternate])
  | some _ =>
    let law2 := { law with pdf_downloaded := true,
                           pdf_path := some (law.celex_id ++ ".pdf") }
    match env.pdfText with
    | some t =>
      if t ≠ "" ∧ trimChars t.data ≠ [] then
        ({ law2 with pdf_text := some t, pdf_text_extracted_at := some now },
          true,
          [ExtractStep.primary, ExtractStep.alternate, ExtractStep.nativePdf])
      else
        (law2, false,
          [ExtractStep.primary, ExtractStep.alternate, ExtractStep.nativePdf])
    | none =>
      (law2, false,
        [ExtractStep.primary, ExtractStep.alternate, ExtractStep.nativePdf])

/-- The "EN/ALL fallback" block of EUDetailProcessor._process_text. -/
def eu_process_text_alternate (env : EUTextEnv) (law : EULaw) (now : Nat) :
    EULaw × Bool × List ExtractStep :=
  match env.altText with
  | some t =>
    if t.length > 500 then
      ({ law with pdf_text := some t, pdf_text_extracted_at := some now },
        true, [ExtractStep.primary, ExtractStep.alternate])
    else eu_process_text_pdf env law now
  | none => eu_process_text_pdf env law now

/-- EUDetailProcessor._process_text: EN/TXT text, then EN/ALL text
(each accepted only above 500 characters), then the downloaded PDF run
through native text extraction (accepted when non-blank).  The third
component records which stages were attempted, in order; no branch ever
attempts OCR. -/
def eu_process_text (env : EUTextEnv) (law : EULaw) (now : Nat) :
    EULaw × Bool × List ExtractStep :=
  match env.primaryText with
  | some t =>
    if t.length > 500 then
      ({ law with pdf_text := some t, pdf_text_extracted_at := some now },
        true, [ExtractStep.primary])
    else eu_process_text_alternate env law now
  | none => eu_process_text_alternate env law now

/-- Page-level inspection of the downloaded PDF by PyMuPDF in
DetailProcessor._extract_text_from_pdf: page count, and the image and
text-block counts of the first page. -/
structure PdfInspect where
  numPages : Nat
  images : Nat
  textBlocks : Nat
deriving Repr, DecidableEq

/-- DetailProcessor._extract_text_from_pdf from
pipeline/detail/process_laws.py: native extraction first; when it
yields nothing and the first page has images but no text blocks, the
source logs "image-based - skipping OCR for now" — the OCR call is
commented out — and falls through returning None.  Result: the updated
law, the success flag, and whether the OCR provider was invoked. -/
def extract_text_from_pdf (law : Law) (now : Nat) (pdfText : String)
    (insp : PdfInspect) : Law × Bool × Bool :=
  if pdfText ≠ "" ∧ trimChars pdfText.data ≠ [] then
    ({ law with pdf_text := some pdfText, pdf_text_extracted_at := some now },
      true, false)
  else if insp.numPages > 0 then
    if insp.images > 0 ∧ insp.textBlocks = 0 then
      (law, false, false)
    else
      (law, false, false)
  else
    (law, false, false)

/-- C7, counterexample.  The exact scenario of the claim: a detail page
lacking usable text (no page text, no alternate text) and a downloaded
PDF whose first page has embedded images and zero extractable text
blocks, yielding no native text.  The claim says the extractor then
invokes OCR; the code does not — the gzk extractor returns failure with
the OCR flag false (its OCR call is commented out), and the EU
extractor stops after the native-PDF stage without an OCR stage. -/
theorem c7_counterexample :
    (extract_text_from_pdf
        { id := 1, act_id := 7, category := "LocalInstActs",
          detail_url := "u" } 0 "" { numPages := 4, images := 2, textBlocks := 0 }
      = ({ id := 1, act_id := 7, category := "LocalInstActs",
           detail_url := "u" }, false, false)) ∧
    (eu_process_text
        { pdfLink := some "x.pdf", pdfText := some "" }
        { id := 1, celex_id := "32019R0001", detail_url := "v" } 0).2.2
      = [ExtractStep.primary, ExtractStep.alternate, ExtractStep.nativePdf] ∧
    ExtractStep.ocr ∉ (eu_process_text
        { pdfLink := some "x.pdf", pdfText := some "" }
        { id := 1, celex_id := "32019R0001", detail_url := "v" } 0).2.2 := by
  refine ⟨by decide, by decide, by decide⟩

/-- C7, amended claim theorem.  The extractor attempts, in order,
primary-page text, alternate-view text, then native PDF text — the
attempted stages are always a prefix of that chain — and OCR is never
invoked: not by the EU fallback chain (which has no OCR stage), and not
by the gzk PDF extractor (whose OCR call is disabled), in particular
never after native PDF extraction has already produced text. -/
theorem c7_fallback_order (env : EUTextEnv) (law : EULaw) (now : Nat)
    (glaw : Law) (gnow : Nat) (pdfText : String) (insp : PdfInspect) :
    ((eu_process_text env law now).2.2 = [ExtractStep.primary] ∨
     (eu_process_text env law now).2.2 =
        [ExtractStep.primary, ExtractStep.alternate] ∨
     (eu_process_text env law now).2.2 =
        [ExtractStep.primary, ExtractStep.alternate, ExtractStep.nativePdf]) ∧
    ExtractStep.ocr ∉ (eu_process_text env law now).2.2 ∧
    (extract_text_from_pdf glaw gnow pdfText insp).2.2 = false := by
  have hsteps : ∀ l b steps, eu_process_text env law now = (l, b, steps) →
      steps = [ExtractStep.primary] ∨
      steps = [ExtractStep.primary, ExtractStep.alternate] ∨
      steps = [ExtractStep.primary, ExtractStep.alternate,
        ExtractStep.nativePdf] := by
    intro l b steps heq
    unfold eu_process_text eu_process_text_alternate
      eu_process_text_pdf at heq
    repeat' split at heq
    all_goals simp_all
  have hmain := hsteps (eu_process_text env law now).1
    (eu_process_text env law now).2.1 (eu_process_text env law now).2.2 rfl
  refine ⟨hmain, ?_, ?_⟩
  · rcases hmain with h | h | h <;> rw [h] <;> decide
  · unfold extract_text_from_pdf
    repeat' split
    all_goals rfl

/-- C7, witness for the amended theorem (the theorem has only type-like
binders, but is applied here at a concrete environment: page text too
short, no alternate, an image-only PDF with empty native text). -/
theorem c7_fallback_order_witness :
    ((eu_process_text { primaryText := some "short" }
        { id := 2, celex_id := "32020L0002", detail_url := "w" } 5).2.2 =
          [ExtractStep.primary] ∨
     (eu_process_text { primaryText := some "short" }
        { id := 2, celex_id := "32020L0002", detail_url := "w" } 5).2.2 =
          [ExtractStep.primary, ExtractStep.alternate] ∨
     (eu_process_text { primaryText := some "short" }
        { id := 2, celex_id := "32020L0002", detail_url := "w" } 5).2.2 =
          [ExtractStep.primary, ExtractStep.alternate,
            ExtractStep.nativePdf]) ∧
    ExtractStep.ocr ∉ (eu_process_text { primaryText := some "short" }
        { id := 2, celex_id := "32020L0002", detail_url := "w" } 5).2.2 ∧
    (extract_text_from_pdf
        { id := 3, act_id := 8, category := "LocalInstActs",
          detail_url := "y" } 6 ""
        { numPages := 1, images := 3, textBlocks := 0 }).2.2 = false :=
  c7_fallback_order { primaryText := some "short" }
    { id := 2, celex_id := "32020L0002", detail_url := "w" } 5
    { id := 3, act_id := 8, category := "LocalInstActs", detail_url := "y" }
    6 "" { numPages := 1, images := 3, textBlocks := 0 }

/-! ## Null-preserving merge: DetailProcessor._process_metadata
(pipeline/detail/process_laws.py, lines 139-158) -/

/-- The Python `or` between an extracted optional string and a fallback
(None and the empty string are falsy). -/
def pyOrStr (x fallback : Option String) : Option String :=
  match x with
  | some s => if s = "" then fallback else some s
  | none => fallback

/-- The extraction results the metadata pass computes from the detail
page (each extractor returns None on failure). -/
structure ExtractedMeta where
  title : Option String := none
  law_number : Option String := none
  institution : Option String := none
  publish_date : Option Nat := none
  gazette_number : Option String := none
deriving Repr, DecidableEq

/-- The field assignments of DetailProcessor._process_metadata:
`law.title = self._extract_title(soup) or law.title` keeps the old
title when extraction comes back falsy, while law_number, institution,
publish_date and gazette_number are assigned the freshly extracted
values unconditionally. -/
def process_metadata (m : ExtractedMeta) (law : Law) : Law :=
  { law with
    title := pyOrStr m.title law.title,
    law_number := m.law_number,
    institution := m.institution,
    publish_date := m.publish_date,
    gazette_number := m.gazette_number }

/-- Concrete row for the C8 counterexample: a law that already has a
non-null law_number. -/
def c8law : Law :=
  { id := 4, act_id := 21, law_number := some "05/L-021",
    category := "LocalInstActs", detail_url := "u" }

/-- C8, counterexample.  A metadata pass whose law-number extraction
fails (returns None) overwrites the existing non-null law_number with
null, contradicting the claim that no non-null metadata field is ever
overwritten with null. -/
theorem c8_counterexample :
    c8law.law_number = some "05/L-021" ∧
    (process_metadata { } c8law).law_number = none := by
  exact ⟨rfl, rfl⟩

/-- C8, amended claim theorem.  Only the title is guarded against null
overwrite: a non-null title stays non-null through the metadata pass,
but law_number, institution, publish_date and gazette_number are
unconditionally replaced by the freshly extracted values, null or not.
The discovery upsert's update path touches only last_seen_at (set to
the call time, never null) and detail_url (non-nullable), leaving every
metadata field unchanged. -/
theorem c8_merge_semantics :
    (∀ (m : ExtractedMeta) (law : Law), law.title ≠ none →
      (process_metadata m law).title ≠ none) ∧
    (∀ (m : ExtractedMeta) (law : Law),
      (process_metadata m law).law_number = m.law_number ∧
      (process_metadata m law).institution = m.institution ∧
      (process_metadata m law).publish_date = m.publish_date ∧
      (process_metadata m law).gazette_number = m.gazette_number) ∧
    (∀ (now : Nat) (u : String) (l : Law),
      (touchLaw now u l).title = l.title ∧
      (touchLaw now u l).law_number = l.law_number ∧
      (touchLaw now u l).institution = l.institution ∧
      (touchLaw now u l).publish_date = l.publish_date ∧
      (touchLaw now u l).gazette_number = l.gazette_number ∧
      (touchLaw now u l).pdf_text = l.pdf_text ∧
      (touchLaw now u l).last_seen_at = some now) := by
  refine ⟨?_, ?_, ?_⟩
  · intro m law h
    unfold process_metadata pyOrStr
    cases m.title with
    | none => simpa using h
    | some s =>
      by_cases he : s = ""
      · simp [he]; exact h
      · simp [he]
  · intro m law
    exact ⟨rfl, rfl, rfl, rfl⟩
  · intro now u l
    exact ⟨rfl, rfl, rfl, rfl, rfl, rfl, rfl⟩

/-- C8, witness: the amended theorem applied to a law with a non-null
title and an empty extraction result. -/
theorem c8_merge_semantics_witness :
    (({ c8law with title := some "LAW ON PENSIONS" } : Law).title ≠ none) ∧
    (process_metadata { } { c8law with title := some "LAW ON PENSIONS" }).title
      ≠ none :=
  ⟨by decide,
    c8_merge_semantics.1 { } { c8law with title := some "LAW ON PENSIONS" }
      (by decide)⟩

end Frwd
